import Mathlib

/-
  Verification development for the SIM7600 MQTT FreeRTOS firmware
  (src/SIM7600-MQTT-ESP32/src/main.cpp).

  The shallow embedding below translates the concurrency skeleton of the
  firmware: the sendATCommand command/response executor, the
  checkIncomingMessages receive poller, the publishMessage publish
  sub-protocol, the mutex discipline of the four FreeRTOS tasks
  (vInitTask, vPublishTask, vReceiveTask, vWatchdogTask), the
  mqttConnected readiness flag, and the periodic scheduling primitives
  (vTaskDelayUntil versus vTaskDelay).
-/

namespace SIM7600

/-- Characters of one chunk of bytes, or of one line, on the modem UART. -/
abbrev Line := List Char

/-- Boolean test that pattern `p` occurs at position 0 of `l`. -/
def startsWithL : Line → Line → Bool
  | [], _ => true
  | _ :: _, [] => false
  | p :: ps, c :: cs => p == c && startsWithL ps cs

/-- Boolean test that pattern `p` occurs as a contiguous substring of `l`.
    Embeds the Arduino `String.indexOf(p) != -1` test used throughout the
    source. -/
def containsSub (p : Line) : Line → Bool
  | [] => startsWithL p []
  | l@(_ :: cs) => startsWithL p l || containsSub p cs

theorem startsWithL_append_self (p t : Line) : startsWithL p (p ++ t) = true := by
  induction p with
  | nil => rfl
  | cons c cs ih => simp [startsWithL, ih]

theorem containsSub_of_startsWithL {p l : Line} (h : startsWithL p l = true) :
    containsSub p l = true := by
  cases l with
  | nil => simpa [containsSub] using h
  | cons c cs => simp [containsSub, h]

theorem containsSub_append_self (p t : Line) : containsSub p (p ++ t) = true :=
  containsSub_of_startsWithL (startsWithL_append_self p t)

/-! ## Command/Response Executor: sendATCommand

The source (main.cpp lines 320-347) writes the command, then loops while
`millis() - startTime < timeout`, draining all available bytes into the
global `response` each iteration and breaking as soon as `response`
contains "OK" or "ERROR" as a substring.  The model discretises time into
ticks: `chunks t` is the byte chunk the modem makes available during tick
`t`; each loop iteration takes one tick and drains one chunk. -/

/-- Terminal-token test of sendATCommand:
    `response.indexOf("OK") != -1 || response.indexOf("ERROR") != -1`. -/
def hasTerminal (resp : Line) : Bool :=
  containsSub "OK".toList resp || containsSub "ERROR".toList resp

/-- All bytes the modem has made available during ticks `0 .. t-1`. -/
def accumChunks (chunks : Nat → Line) : Nat → Line
  | 0 => []
  | t + 1 => accumChunks chunks t ++ chunks t

/-- The receive loop of sendATCommand: `rem` ticks of budget remain, `t`
    ticks have elapsed, `resp` is the accumulated response so far.
    Returns (elapsed ticks, accumulated response). -/
def sendATGo (chunks : Nat → Line) : Nat → Nat → Line → Nat × Line
  | 0, t, resp => (t, resp)
  | rem + 1, t, resp =>
    let resp2 := resp ++ chunks t
    if hasTerminal resp2 then (t + 1, resp2)
    else sendATGo chunks rem (t + 1) resp2

/-- Shallow embedding of `sendATCommand(command, timeout)` (main.cpp
    lines 320-347).  The command `_cmd` is written to the UART before the
    loop and does not influence the receive loop; the global `response`
    is reset to empty at entry. -/
def sendATCommand (_cmd : Line) (chunks : Nat → Line) (timeoutMs : Nat) : Nat × Line :=
  sendATGo chunks timeoutMs 0 []

theorem sendATGo_spec (chunks : Nat → Line) :
    ∀ rem t : Nat, (∀ j, j ≤ t → hasTerminal (accumChunks chunks j) = false) →
      (sendATGo chunks rem t (accumChunks chunks t)).1 ≤ t + rem ∧
      t ≤ (sendATGo chunks rem t (accumChunks chunks t)).1 ∧
      (sendATGo chunks rem t (accumChunks chunks t)).2 =
        accumChunks chunks (sendATGo chunks rem t (accumChunks chunks t)).1 ∧
      ((sendATGo chunks rem t (accumChunks chunks t)).1 < t + rem →
        hasTerminal (sendATGo chunks rem t (accumChunks chunks t)).2 = true) ∧
      (∀ j, j < (sendATGo chunks rem t (accumChunks chunks t)).1 →
        hasTerminal (accumChunks chunks j) = false) := by
  intro rem
  induction rem with
  | zero =>
      intro t H
      have hred : sendATGo chunks 0 t (accumChunks chunks t) =
          (t, accumChunks chunks t) := rfl
      rw [hred]
      refine ⟨le_refl t, le_refl t, rfl, ?_, ?_⟩
      · intro h; omega
      · intro j hj; exact H j (Nat.le_of_lt hj)
  | succ rem ih =>
      intro t H
      have hacc : accumChunks chunks t ++ chunks t = accumChunks chunks (t + 1) := rfl
      by_cases hterm : hasTerminal (accumChunks chunks (t + 1)) = true
      · have hred : sendATGo chunks (rem + 1) t (accumChunks chunks t) =
            (t + 1, accumChunks chunks (t + 1)) := by
          simp [sendATGo, hacc, hterm]
        rw [hred]
        refine ⟨by omega, by omega, rfl, fun _ => hterm, ?_⟩
        intro j hj
        exact H j (by omega)
      · have hfalse : hasTerminal (accumChunks chunks (t + 1)) = false :=
          Bool.eq_false_iff.mpr hterm
        have hred : sendATGo chunks (rem + 1) t (accumChunks chunks t) =
            sendATGo chunks rem (t + 1) (accumChunks chunks (t + 1)) := by
          simp [sendATGo, hacc, hfalse]
        have H2 : ∀ j, j ≤ t + 1 → hasTerminal (accumChunks chunks j) = false := by
          intro j hj
          rcases Nat.lt_or_ge j (t + 1) with h | h
          · exact H j (by omega)
          · have : j = t + 1 := by omega
            rw [this]; exact hfalse
        have := ih (t + 1) H2
        rw [hred]
        refine ⟨by omega, by omega, this.2.2.1, ?_, this.2.2.2.2⟩
        intro h
        exact this.2.2.2.1 (by omega)

theorem sendATCommand_spec (cmd : Line) (chunks : Nat → Line) (timeoutMs : Nat) :
    (sendATCommand cmd chunks timeoutMs).1 ≤ timeoutMs ∧
    (sendATCommand cmd chunks timeoutMs).2 =
      accumChunks chunks (sendATCommand cmd chunks timeoutMs).1 ∧
    ((sendATCommand cmd chunks timeoutMs).1 < timeoutMs →
      hasTerminal (sendATCommand cmd chunks timeoutMs).2 = true) ∧
    (∀ j, j < (sendATCommand cmd chunks timeoutMs).1 →
      hasTerminal (accumChunks chunks j) = false) := by
  have h0 : ∀ j, j ≤ 0 → hasTerminal (accumChunks chunks j) = false := by
    intro j hj
    have : j = 0 := Nat.le_zero.mp hj
    rw [this]
    rfl
  have hacc0 : accumChunks chunks 0 = [] := rfl
  have hmain := sendATGo_spec chunks timeoutMs 0 h0
  rw [hacc0] at hmain
  have hdef : sendATCommand cmd chunks timeoutMs = sendATGo chunks timeoutMs 0 [] := rfl
  rw [hdef]
  refine ⟨by have := hmain.1; omega, hmain.2.2.1, ?_, hmain.2.2.2.2⟩
  intro h
  exact hmain.2.2.2.1 (by omega)

/-- Concrete scenario for the early-stop behaviour of sendATCommand:
    the modem echoes the subscribe command, whose topic text contains
    "OK", during tick 0; the genuine result line and terminal token
    arrive at tick 1 but are never read. -/
def subCmd : Line := "AT+CMQTTSUB=0,\"test/OK\",1".toList

/-- The echoed command line, available during tick 0. -/
def echoLine : Line := "AT+CMQTTSUB=0,\"test/OK\",1".toList

/-- Byte arrival schedule for the echo scenario. -/
def echoChunks : Nat → Line
  | 0 => echoLine
  | 1 => "\r\n+CMQTTSUB: 0,0\r\n\r\nOK\r\n".toList
  | _ => []

/-- C5: For every command string and timeout value, sendATCommand
    terminates and returns within timeoutMs (the elapsed tick count never
    exceeds the budget, even when no terminal token ever arrives); and
    when a terminal token appears as a substring of the accumulated
    bytes, it stops accumulating (no accumulation before the returned
    tick contained a terminal token, and on an early return the returned
    accumulation does contain one) and returns the accumulated text
    verbatim. -/
theorem sendATCommand_within_timeout :
    ∀ (cmd : Line) (chunks : Nat → Line) (timeoutMs : Nat),
      (sendATCommand cmd chunks timeoutMs).1 ≤ timeoutMs ∧
      (sendATCommand cmd chunks timeoutMs).2 =
        accumChunks chunks (sendATCommand cmd chunks timeoutMs).1 ∧
      ((sendATCommand cmd chunks timeoutMs).1 < timeoutMs →
        hasTerminal (sendATCommand cmd chunks timeoutMs).2 = true) ∧
      (∀ j, j < (sendATCommand cmd chunks timeoutMs).1 →
        hasTerminal (accumChunks chunks j) = false) :=
  fun cmd chunks timeoutMs => sendATCommand_spec cmd chunks timeoutMs

theorem sendATCommand_within_timeout_witness :
    (sendATCommand "AT".toList (fun _ => []) 3).1 ≤ 3 :=
  (sendATCommand_within_timeout "AT".toList (fun _ => []) 3).1

/-- C10: accumulation stops as soon as "OK" or "ERROR" occurs as a
    substring anywhere in the bytes accumulated so far — if the
    accumulation after tick j already contains a terminal token, the call
    returns by tick j, whatever arrives later — and in the concrete echo
    scenario the call returns only the echoed command (which contains
    "OK" inside the topic text) and never reads the genuine
    "+CMQTTSUB: 0,0" result. -/
theorem sendATCommand_early_terminal_stop :
    (∀ (cmd : Line) (chunks : Nat → Line) (timeoutMs j : Nat),
        j ≤ timeoutMs → hasTerminal (accumChunks chunks j) = true →
        (sendATCommand cmd chunks timeoutMs).1 ≤ j ∧
        (sendATCommand cmd chunks timeoutMs).2 =
          accumChunks chunks (sendATCommand cmd chunks timeoutMs).1) ∧
    (sendATCommand subCmd echoChunks 5).2 = echoLine ∧
    containsSub "+CMQTTSUB: 0,0".toList (sendATCommand subCmd echoChunks 5).2 = false := by
  refine ⟨?_, by decide, by decide⟩
  intro cmd chunks timeoutMs j hj hterm
  have h := sendATCommand_spec cmd chunks timeoutMs
  refine ⟨?_, h.2.1⟩
  by_contra hlt
  have hjlt : j < (sendATCommand cmd chunks timeoutMs).1 := by omega
  have := h.2.2.2 j hjlt
  rw [this] at hterm
  exact Bool.false_ne_true hterm

theorem sendATCommand_early_terminal_stop_witness :
    ((1 : Nat) ≤ 5 ∧ hasTerminal (accumChunks echoChunks 1) = true) ∧
    (sendATCommand subCmd echoChunks 5).1 ≤ 1 :=
  ⟨⟨by decide, by decide⟩,
   (sendATCommand_early_terminal_stop.1 subCmd echoChunks 5 1 (by decide) (by decide)).1⟩

/-! ## Task traces

Each FreeRTOS task body is embedded as a function from the outcomes of
its environment (mutex-acquire results, helper-function results) to the
sequence of observable actions it performs.  Actions record mutex
operations, transport operations (AT-command executor calls, raw UART
line writes, receive polling), writes to the mqttConnected readiness
flag, delays, diagnostic reports, and task self-deletion
(vTaskDelete(NULL)). -/

/-- Bring-up phases performed by vInitTask.  The network, mqttSetup and
    mqttConnect phases stand for the calls to setupNetwork, setupMQTT and
    connectMQTT, each of which drives the modem UART internally. -/
inductive Phase where
  | mcpInit : Phase
  | uartInit : Phase
  | network : Phase
  | mqttSetup : Phase
  | mqttConnect : Phase
deriving DecidableEq, Fintype

/-- One observable action of a task body. -/
inductive Act where
  | takeOk : Act
  | takeFail : Act
  | give : Act
  | execAT (cmd : String) (timeoutMs : Nat) : Act
  | writeLine (s : String) : Act
  | delayMs (n : Nat) : Act
  | setFlag (b : Bool) : Act
  | pollIncoming : Act
  | runPhase (p : Phase) : Act
  | report (msg : String) : Act
  | terminate : Act
deriving DecidableEq

/-- Mutex-held count after running the lock operations of a trace;
    `none` if a give occurs while the mutex is not held. -/
def runLock : Nat → List Act → Option Nat
  | h, [] => some h
  | h, Act.takeOk :: r => runLock (h + 1) r
  | h, Act.give :: r => if h = 0 then none else runLock (h - 1) r
  | h, _ :: r => runLock h r

/-- Actions that touch the shared modem transport. -/
def isTransport : Act → Bool
  | Act.execAT _ _ => true
  | Act.writeLine _ => true
  | Act.pollIncoming => true
  | Act.runPhase Phase.network => true
  | Act.runPhase Phase.mqttSetup => true
  | Act.runPhase Phase.mqttConnect => true
  | _ => false

/-- Values written to the mqttConnected flag along a trace, in order. -/
def flagWrites : List Act → List Bool
  | [] => []
  | Act.setFlag b :: r => b :: flagWrites r
  | _ :: r => flagWrites r

def isReport : Act → Bool
  | Act.report _ => true
  | _ => false

def isWriteLineAct : Act → Bool
  | Act.writeLine _ => true
  | _ => false

def isFlagSetTrue : Act → Bool
  | Act.setFlag true => true
  | _ => false

def isExecAT : Act → Bool
  | Act.execAT _ _ => true
  | _ => false

/-- Number of Command/Response Executor (sendATCommand) calls in a trace. -/
def execATCount (t : List Act) : Nat := (t.filter isExecAT).length

/-- Raw UART line writes of a trace, in order. -/
def writeLinesOf : List Act → List String
  | [] => []
  | Act.writeLine s :: r => s :: writeLinesOf r
  | _ :: r => writeLinesOf r

/-- Delay durations of a trace, in order. -/
def delaysOf : List Act → List Nat
  | [] => []
  | Act.delayMs n :: r => n :: delaysOf r
  | _ :: r => delaysOf r

/-- Boolean test that the first action satisfying `p` occurs strictly
    before the first action satisfying `q` (both must occur). -/
def idxLt (p q : Act → Bool) (t : List Act) : Bool :=
  match t.findIdx? p, t.findIdx? q with
  | some i, some j => decide (i < j)
  | _, _ => false

/-- The publish topic of the firmware (main.cpp line 96). -/
def test_topic_pub : String := "test/sim7600/status"

/-- Trace of publishMessage(topic, message) (main.cpp lines 502-532):
    five raw SIM7600.println writes (declare-topic, topic text,
    declare-payload, payload text, trigger-publish), each followed by a
    200 ms vTaskDelay, then a confirmation print.  No sendATCommand call
    and no mutex operation occurs inside it. -/
def publishMessageTrace (topic message : String) : List Act :=
  [Act.writeLine ("AT+CMQTTTOPIC=0," ++ toString topic.length),
   Act.delayMs 200,
   Act.writeLine topic,
   Act.delayMs 200,
   Act.writeLine ("AT+CMQTTPAYLOAD=0," ++ toString message.length),
   Act.delayMs 200,
   Act.writeLine message,
   Act.delayMs 200,
   Act.writeLine "AT+CMQTTPUB=0,1,60",
   Act.delayMs 200,
   Act.report "Published"]

/-- Trace of vInitTask (main.cpp lines 573-686) as a function of the
    outcomes of its environment:
    mcpOk   = result of initMCP23017();
    take1   = result of xSemaphoreTake for the AT probe (5000 ms);
    atOk    = the probe response contained "OK" or "AT";
    take2   = xSemaphoreTake for setupNetwork (30000 ms);
    netOk   = result of setupNetwork();
    take3   = xSemaphoreTake for setupMQTT (30000 ms);
    mqttOk  = result of setupMQTT() (the source function always returns
              true, so the false branch is dead code in this firmware);
    take4   = xSemaphoreTake for connectMQTT (30000 ms);
    connOk  = result of connectMQTT() (likewise always true in the
              source);
    take5   = xSemaphoreTake for the initial status publish (10000 ms).
    Every vTaskDelete(NULL) is recorded as Act.terminate. -/
def vInitTaskTrace (mcpOk take1 atOk take2 netOk take3 mqttOk take4 connOk take5 : Bool) :
    List Act :=
  Act.delayMs 500 ::
  Act.runPhase Phase.mcpInit ::
  if !mcpOk then
    [Act.report "Failed to initialize MCP23017! Halting...",
     Act.setFlag false, Act.terminate]
  else
    Act.runPhase Phase.uartInit ::
    Act.delayMs 3000 ::
    if take1 then
      Act.takeOk ::
      Act.execAT "AT" 2000 ::
      if !atOk then
        [Act.report "Module not responding! Check connections.",
         Act.give, Act.setFlag false, Act.terminate]
      else
        Act.execAT "ATE0" 2000 ::
        Act.execAT "ATI" 2000 ::
        Act.give ::
        if take2 then
          Act.takeOk ::
          Act.runPhase Phase.network ::
          if !netOk then
            [Act.report "Network setup failed! Check SIM card and signal.",
             Act.give, Act.setFlag false, Act.terminate]
          else
            Act.give ::
            if take3 then
              Act.takeOk ::
              Act.runPhase Phase.mqttSetup ::
              if !mqttOk then
                [Act.report "MQTT setup failed!",
                 Act.give, Act.setFlag false, Act.terminate]
              else
                Act.give ::
                if take4 then
                  Act.takeOk ::
                  Act.runPhase Phase.mqttConnect ::
                  if !connOk then
                    [Act.report "MQTT connection failed!",
                     Act.give, Act.setFlag false, Act.terminate]
                  else
                    Act.give ::
                    Act.setFlag true ::
                    ((if take5 then
                        Act.takeOk ::
                        (publishMessageTrace test_topic_pub "SIM7600 online! [FreeRTOS]" ++
                         [Act.give])
                      else [Act.takeFail]) ++
                     [Act.terminate])
                else
                  [Act.takeFail, Act.report "Failed to acquire mutex for MQTT connect!",
                   Act.terminate]
            else
              [Act.takeFail, Act.report "Failed to acquire mutex for MQTT setup!",
               Act.terminate]
        else
          [Act.takeFail, Act.report "Failed to acquire mutex for network setup!",
           Act.terminate]
    else
      [Act.takeFail, Act.report "Failed to acquire mutex for AT commands!",
       Act.terminate]

/-- Trace of one loop iteration of vPublishTask after its
    vTaskDelayUntil wake-up (main.cpp lines 707-730): flag = value of
    mqttConnected read this cycle, lockOk = result of
    xSemaphoreTake(10000 ms), msg = the composed status message. -/
def vPublishCycleTrace (flag lockOk : Bool) (msg : String) : List Act :=
  if !flag then
    [Act.report "MQTT not connected, skipping publish"]
  else if lockOk then
    Act.takeOk ::
    Act.report "Publishing" ::
    (publishMessageTrace test_topic_pub msg ++ [Act.give])
  else
    [Act.takeFail, Act.report "Failed to acquire mutex for publish!"]

/-- Trace of one loop iteration of vReceiveTask (main.cpp lines
    747-758): when mqttConnected holds it takes the mutex with a 500 ms
    timeout; a failed take has no else branch; each iteration ends with
    a relative vTaskDelay(100 ms). -/
def vReceiveCycleTrace (flag lockOk : Bool) : List Act :=
  (if flag then
     if lockOk then [Act.takeOk, Act.pollIncoming, Act.give]
     else [Act.takeFail]
   else []) ++ [Act.delayMs 100]

/-- Trace of one loop iteration of vWatchdogTask after its
    vTaskDelayUntil wake-up (main.cpp lines 780-813). -/
def vWatchdogCycleTrace (flag lockOk : Bool) : List Act :=
  if !flag then
    [Act.report "Watchdog: MQTT disconnected!"]
  else if lockOk then
    [Act.takeOk, Act.report "Watchdog: System healthy", Act.give]
  else
    [Act.takeFail, Act.report "Watchdog: Failed to acquire mutex!"]

/-- C1: for every task and every execution path — all combinations of
    helper results and mutex-acquire outcomes for vInitTask, and every
    cycle of the three periodic tasks — every successful mutex
    acquisition is followed by exactly one release before that path
    exits: the held count never goes negative and returns to zero, so no
    path leaves the SIM7600 mutex permanently held and every later
    acquisition finds it free. -/
theorem mutex_balance_all_tasks :
    (∀ mcpOk take1 atOk take2 netOk take3 mqttOk take4 connOk take5 : Bool,
       runLock 0 (vInitTaskTrace mcpOk take1 atOk take2 netOk take3 mqttOk take4
         connOk take5) = some 0) ∧
    (∀ (flag lockOk : Bool) (msg : String),
       runLock 0 (vPublishCycleTrace flag lockOk msg) = some 0) ∧
    (∀ flag lockOk : Bool, runLock 0 (vReceiveCycleTrace flag lockOk) = some 0) ∧
    (∀ flag lockOk : Bool, runLock 0 (vWatchdogCycleTrace flag lockOk) = some 0) := by
  refine ⟨by decide, ?_, by decide, by decide⟩
  intro flag lockOk msg
  cases flag <;> cases lockOk <;> rfl

/-- C3 counterexample: on the execution path where initMCP23017 fails,
    vInitTask performs exactly one write of the readiness flag and the
    written value is false (main.cpp line 582), so the flag is not
    "written exactly once, transitioning false to true". -/
theorem flag_write_once_counterexample :
    ¬ (flagWrites (vInitTaskTrace false true true true true true true true true true) =
        [true]) := by
  decide

/-- C3 amended: the readiness flag starts false and is written at most
    once per process lifetime, only by vInitTask; the single write has
    value true exactly on the path where every bring-up step and every
    bring-up mutex acquisition succeeds; the bring-up failure paths
    write false (a no-op, since the flag is already false) or, on a
    mutex-acquire failure, write nothing; the periodic tasks never write
    the flag.  Hence the flag transitions false to true at most once and
    never reverts. -/
theorem flag_write_discipline :
    (∀ mcpOk take1 atOk take2 netOk take3 mqttOk take4 connOk take5 : Bool,
       (flagWrites (vInitTaskTrace mcpOk take1 atOk take2 netOk take3 mqttOk take4
          connOk take5)).length ≤ 1 ∧
       (flagWrites (vInitTaskTrace mcpOk take1 atOk take2 netOk take3 mqttOk take4
          connOk take5) = [true] ↔
        (mcpOk && take1 && atOk && take2 && netOk && take3 && mqttOk && take4 &&
          connOk) = true)) ∧
    (∀ (flag lockOk : Bool) (msg : String),
       flagWrites (vPublishCycleTrace flag lockOk msg) = []) ∧
    (∀ flag lockOk : Bool, flagWrites (vReceiveCycleTrace flag lockOk) = []) ∧
    (∀ flag lockOk : Bool, flagWrites (vWatchdogCycleTrace flag lockOk) = []) := by
  refine ⟨by decide, ?_, by decide, by decide⟩
  intro flag lockOk msg
  cases flag <;> cases lockOk <;> rfl

/-- C6 counterexample: publishMessage performs zero Command/Response
    Executor (sendATCommand) calls — its five protocol steps are raw
    SIM7600.println writes with fixed delays and no response wait — so
    the publish sub-protocol is not "four to five sequential Executor
    calls". -/
theorem publish_executor_calls_counterexample :
    ¬ (4 ≤ execATCount (publishMessageTrace test_topic_pub "Msg#1 | Uptime:1s")) := by
  decide

/-- C6 amended: each Publisher cycle with the readiness flag set and a
    successful mutex acquisition holds the lock around the whole publish
    sub-protocol: the cycle starts with the acquire and ends with the
    release, and in between publishMessage issues exactly the five raw
    write-line operations declare-topic, send-topic, declare-payload,
    send-payload, trigger-publish, each followed by a 200 ms delay, with
    no Executor (sendATCommand) call and no response wait. -/
theorem publish_protocol_raw_writes :
    ∀ msg : String,
      writeLinesOf (vPublishCycleTrace true true msg) =
        ["AT+CMQTTTOPIC=0," ++ toString test_topic_pub.length,
         test_topic_pub,
         "AT+CMQTTPAYLOAD=0," ++ toString msg.length,
         msg,
         "AT+CMQTTPUB=0,1,60"] ∧
      delaysOf (publishMessageTrace test_topic_pub msg) = [200, 200, 200, 200, 200] ∧
      execATCount (vPublishCycleTrace true true msg) = 0 ∧
      (vPublishCycleTrace true true msg).head? = some Act.takeOk ∧
      (vPublishCycleTrace true true msg).getLast? = some Act.give ∧
      runLock 0 (vPublishCycleTrace true true msg) = some 0 := by
  intro msg
  exact ⟨rfl, rfl, rfl, rfl, rfl, rfl⟩

/-- C7 counterexample: on a lock-acquire timeout vReceiveTask performs
    no report at all — the failed xSemaphoreTake has no else branch
    (main.cpp lines 750-753) — so the claim that every periodic task
    "reports the miss" fails for the ReceivePoller. -/
theorem receive_miss_report_counterexample :
    ¬ ((vReceiveCycleTrace true false).any isReport = true) := by
  decide

/-- C7 amended: a lock-acquire timeout is never fatal for any periodic
    task: the affected cycle performs no transport operation, the task
    does not terminate (no vTaskDelete occurs), so it runs again at its
    next period; vPublishTask and vWatchdogTask report the miss, while
    vReceiveTask skips silently. -/
theorem lock_timeout_skip_cycle :
    ∀ msg : String,
      ((vPublishCycleTrace true false msg).filter isTransport = [] ∧
       (vPublishCycleTrace true false msg).contains Act.terminate = false ∧
       (vPublishCycleTrace true false msg).any isReport = true) ∧
      ((vReceiveCycleTrace true false).filter isTransport = [] ∧
       (vReceiveCycleTrace true false).contains Act.terminate = false ∧
       (vReceiveCycleTrace true false).any isReport = false) ∧
      ((vWatchdogCycleTrace true false).filter isTransport = [] ∧
       (vWatchdogCycleTrace true false).contains Act.terminate = false ∧
       (vWatchdogCycleTrace true false).any isReport = true) := by
  intro msg
  exact ⟨⟨rfl, rfl, rfl⟩, ⟨rfl, rfl, rfl⟩, ⟨rfl, rfl, rfl⟩⟩

/-! ## Periodic scheduling

vPublishTask (period 1000 ms, main.cpp lines 702-709) and vWatchdogTask
(period 60000 ms, lines 775-782) call vTaskDelayUntil(&xLastWakeTime,
xFrequency), whose FreeRTOS semantics adds the fixed period to the
previous scheduled wake time: absolute next-wake-time accumulation.
vReceiveTask (lines 747-758) instead ends each iteration with a relative
vTaskDelay(100), so its next cycle starts only after the cycle's own
execution time plus 100 ms. -/

/-- Scheduled wake tick of cycle k under vTaskDelayUntil accumulation. -/
def delayUntilWake (init period : Nat) : Nat → Nat
  | 0 => init
  | k + 1 => delayUntilWake init period k + period

/-- Scheduled wake tick of vPublishTask cycle k (period 1000 ms). -/
def vPublishWake (init : Nat) : Nat → Nat := delayUntilWake init 1000

/-- Scheduled wake tick of vWatchdogTask cycle k (period 60000 ms). -/
def vWatchdogWake (init : Nat) : Nat → Nat := delayUntilWake init 60000

/-- Start tick of vReceiveTask cycle k under relative vTaskDelay(100):
    `exec j` is the execution time of cycle j (lock wait plus polling
    work). -/
def recvCycleStart (init : Nat) (exec : Nat → Nat) : Nat → Nat
  | 0 => init
  | k + 1 => recvCycleStart init exec k + exec k + 100

/-- Total execution time of vReceiveTask cycles 0 .. k-1. -/
def execSum (exec : Nat → Nat) : Nat → Nat
  | 0 => 0
  | k + 1 => execSum exec k + exec k

/-- C8 counterexample: with an execution time of 50 ms per cycle, the
    start of vReceiveTask cycle 2 is 300 ms after the initial wake, not
    within one scheduling-resolution unit of the claimed
    initial + 2 x 100 ms, because vReceiveTask uses a relative
    vTaskDelay rather than vTaskDelayUntil. -/
theorem receive_drift_counterexample :
    ¬ (recvCycleStart 0 (fun _ => 50) 2 ≤ 0 + 2 * 100 + 1) := by
  decide

/-- C8 amended: vPublishTask and vWatchdogTask are scheduled by absolute
    next-wake-time accumulation — cycle k wakes exactly at
    initial + k x period, independent of execution time — but
    vReceiveTask uses a relative vTaskDelay(100), so its cycle k starts
    at initial + k x 100 plus the accumulated execution time of all
    previous cycles. -/
theorem periodic_wake_time_law :
    (∀ init k : Nat, vPublishWake init k = init + k * 1000) ∧
    (∀ init k : Nat, vWatchdogWake init k = init + k * 60000) ∧
    (∀ (init : Nat) (exec : Nat → Nat) (k : Nat),
       recvCycleStart init exec k = init + k * 100 + execSum exec k) := by
  have habs : ∀ init period k : Nat, delayUntilWake init period k = init + k * period := by
    intro init period k
    induction k with
    | zero => simp [delayUntilWake]
    | succ k ih => simp [delayUntilWake, ih]; ring
  refine ⟨fun init k => habs init 1000 k, fun init k => habs init 60000 k, ?_⟩
  intro init exec k
  induction k with
  | zero => simp [recvCycleStart, execSum]
  | succ k ih => simp [recvCycleStart, execSum, ih]; ring

/-- C2 counterexample: on the all-success path of vInitTask the
    readiness flag is set (main.cpp line 672) strictly before the first
    raw write of the initial "online" publish (line 678), so the claimed
    bring-up order "publish initial online notice, then set the
    ReadinessFlag, then terminate" does not hold: the first publish
    write does not precede the flag set. -/
theorem init_flag_order_counterexample :
    ¬ (idxLt isWriteLineAct isFlagSetTrue
        (vInitTaskTrace true true true true true true true true true true) = true) := by
  decide

/-! ## Readiness-flag gate: interleaving model

The three periodic tasks each begin with the polling loop
`while (!mqttConnected) vTaskDelay(1000);` and only afterwards perform
transport work.  The model below interleaves vInitTask (its trace
abstracted to a program of gate-relevant actions) with the three gated
periodic tasks under an arbitrary scheduler, and shows that every
transport action of a periodic task happens after the initializer's
flag-set action. -/

/-- Gate-relevant abstraction of a task action. -/
inductive GAct where
  | flagSet : GAct
  | transport : GAct
  | internal : GAct
deriving DecidableEq

/-- Abstraction of a vInitTask action to its gate-relevant content. -/
def actToG : Act → GAct
  | Act.setFlag true => GAct.flagSet
  | Act.execAT _ _ => GAct.transport
  | Act.writeLine _ => GAct.transport
  | Act.pollIncoming => GAct.transport
  | Act.runPhase Phase.network => GAct.transport
  | Act.runPhase Phase.mqttSetup => GAct.transport
  | Act.runPhase Phase.mqttConnect => GAct.transport
  | _ => GAct.internal

/-- Global state of the interleaved system: the readiness flag, the
    remaining program of the initializer, whether each periodic task is
    still waiting in its readiness-polling loop, and the event history
    (most recent event first; task 0 is the initializer, 1 the
    Publisher, 2 the ReceivePoller, 3 the Watchdog). -/
structure GState where
  flag : Bool
  initRem : List GAct
  pubGate : Bool
  recvGate : Bool
  wdgGate : Bool
  trace : List (Nat × GAct)

/-- Effect of the initializer executing its next action. -/
def applyInit (s : GState) (a : GAct) (r : List GAct) : GState :=
  { flag := if a = GAct.flagSet then true else s.flag
    initRem := r
    pubGate := s.pubGate
    recvGate := s.recvGate
    wdgGate := s.wdgGate
    trace := (0, a) :: s.trace }

/-- One scheduler step: either the initializer runs its next action, or
    a periodic task observes the flag true and leaves its polling loop,
    or a periodic task that has left its polling loop performs a
    transport operation. -/
inductive GStep : GState → GState → Prop where
  | initStep (s : GState) (a : GAct) (r : List GAct) :
      s.initRem = a :: r → GStep s (applyInit s a r)
  | pubPass (s : GState) : s.pubGate = true → s.flag = true →
      GStep s { s with pubGate := false }
  | pubWork (s : GState) : s.pubGate = false →
      GStep s { s with trace := (1, GAct.transport) :: s.trace }
  | recvPass (s : GState) : s.recvGate = true → s.flag = true →
      GStep s { s with recvGate := false }
  | recvWork (s : GState) : s.recvGate = false →
      GStep s { s with trace := (2, GAct.transport) :: s.trace }
  | wdgPass (s : GState) : s.wdgGate = true → s.flag = true →
      GStep s { s with wdgGate := false }
  | wdgWork (s : GState) : s.wdgGate = false →
      GStep s { s with trace := (3, GAct.transport) :: s.trace }

/-- Initial state: flag false, periodic tasks waiting at their gates,
    the initializer about to run `prog`. -/
def init0 (prog : List GAct) : GState :=
  { flag := false, initRem := prog, pubGate := true, recvGate := true,
    wdgGate := true, trace := [] }

/-- Every transport event of a periodic task (id other than 0) is newer
    than some initializer flag-set event: reading the history from the
    most recent event, the flag-set event appears in the remainder. -/
def gateOK : List (Nat × GAct) → Prop
  | [] => True
  | (i, a) :: rest =>
      ((i ≠ 0 → a = GAct.transport → (0, GAct.flagSet) ∈ rest)) ∧ gateOK rest

/-- Inductive invariant of the interleaved system. -/
def GInv (prog : List GAct) (s : GState) : Prop :=
  s.initRem <:+ prog ∧
  (∀ a, (0, a) ∈ s.trace → a ∈ prog) ∧
  (s.flag = true → (0, GAct.flagSet) ∈ s.trace) ∧
  (s.pubGate = false → (0, GAct.flagSet) ∈ s.trace) ∧
  (s.recvGate = false → (0, GAct.flagSet) ∈ s.trace) ∧
  (s.wdgGate = false → (0, GAct.flagSet) ∈ s.trace) ∧
  gateOK s.trace

theorem GInv_init0 (prog : List GAct) : GInv prog (init0 prog) := by
  refine ⟨List.suffix_refl prog, ?_, ?_, ?_, ?_, ?_, trivial⟩ <;> simp [init0]

theorem GStep_preserves_GInv {prog : List GAct} {s s2 : GState}
    (hstep : GStep s s2) (h : GInv prog s) : GInv prog s2 := by
  obtain ⟨hsuf, htr, hflag, hpub, hrecv, hwdg, hok⟩ := h
  cases hstep with
  | initStep a r hrem =>
      have hcons : a :: r <:+ prog := hrem ▸ hsuf
      refine ⟨?_, ?_, ?_, ?_, ?_, ?_, ?_⟩
      · exact (List.suffix_cons a r).trans hcons
      · intro b hb
        rcases List.mem_cons.mp hb with hb | hb
        · have : b = a := by
            have := congrArg Prod.snd hb
            simpa using this
          rw [this]
          exact hcons.subset (List.mem_cons_self a r)
        · exact htr b hb
      · intro hf
        by_cases ha : a = GAct.flagSet
        · rw [ha]; exact List.mem_cons_self _ _
        · have : s.flag = true := by simpa [applyInit, ha] using hf
          exact List.mem_cons_of_mem _ (hflag this)
      · intro hg
        exact List.mem_cons_of_mem _ (hpub hg)
      · intro hg
        exact List.mem_cons_of_mem _ (hrecv hg)
      · intro hg
        exact List.mem_cons_of_mem _ (hwdg hg)
      · exact ⟨fun h0 _ => absurd rfl h0, hok⟩
  | pubPass hg hf =>
      exact ⟨hsuf, htr, hflag, fun _ => hflag hf, hrecv, hwdg, hok⟩
  | pubWork hg =>
      refine ⟨hsuf, ?_, ?_, ?_, ?_, ?_, ?_⟩
      · intro b hb
        rcases List.mem_cons.mp hb with hb | hb
        · exact absurd (congrArg Prod.fst hb) (by simp)
        · exact htr b hb
      · intro hf; exact List.mem_cons_of_mem _ (hflag hf)
      · intro h2; exact List.mem_cons_of_mem _ (hpub h2)
      · intro h2; exact List.mem_cons_of_mem _ (hrecv h2)
      · intro h2; exact List.mem_cons_of_mem _ (hwdg h2)
      · exact ⟨fun _ _ => hpub hg, hok⟩
  | recvPass hg hf =>
      exact ⟨hsuf, htr, hflag, hpub, fun _ => hflag hf, hwdg, hok⟩
  | recvWork hg =>
      refine ⟨hsuf, ?_, ?_, ?_, ?_, ?_, ?_⟩
      · intro b hb
        rcases List.mem_cons.mp hb with hb | hb
        · exact absurd (congrArg Prod.fst hb) (by simp)
        · exact htr b hb
      · intro hf; exact List.mem_cons_of_mem _ (hflag hf)
      · intro h2; exact List.mem_cons_of_mem _ (hpub h2)
      · intro h2; exact List.mem_cons_of_mem _ (hrecv h2)
      · intro h2; exact List.mem_cons_of_mem _ (hwdg h2)
      · exact ⟨fun _ _ => hrecv hg, hok⟩
  | wdgPass hg hf =>
      exact ⟨hsuf, htr, hflag, hpub, hrecv, fun _ => hflag hf, hok⟩
  | wdgWork hg =>
      refine ⟨hsuf, ?_, ?_, ?_, ?_, ?_, ?_⟩
      · intro b hb
        rcases List.mem_cons.mp hb with hb | hb
        · exact absurd (congrArg Prod.fst hb) (by simp)
        · exact htr b hb
      · intro hf; exact List.mem_cons_of_mem _ (hflag hf)
      · intro h2; exact List.mem_cons_of_mem _ (hpub h2)
      · intro h2; exact List.mem_cons_of_mem _ (hrecv h2)
      · intro h2; exact List.mem_cons_of_mem _ (hwdg h2)
      · exact ⟨fun _ _ => hwdg hg, hok⟩

theorem GInv_of_reach {prog : List GAct} {s : GState}
    (h : Relation.ReflTransGen GStep (init0 prog) s) : GInv prog s := by
  induction h with
  | refl => exact GInv_init0 prog
  | tail _ hstep ih => exact GStep_preserves_GInv hstep ih

theorem gateOK_split :
    ∀ (l1 : List (Nat × GAct)) (i : Nat) (a : GAct) (l2 : List (Nat × GAct)),
      gateOK (l1 ++ (i, a) :: l2) → i ≠ 0 → a = GAct.transport →
      (0, GAct.flagSet) ∈ l2 := by
  intro l1
  induction l1 with
  | nil =>
      intro i a l2 h hi ha
      exact h.1 hi ha
  | cons x xs ih =>
      intro i a l2 h hi ha
      exact ih i a l2 h.2 hi ha

/-- In any reachable state, a transport event of a periodic task is
    preceded (deeper in the history) by the initializer's flag-set
    event. -/
theorem periodic_transport_after_flagSet {prog : List GAct} {s : GState}
    (h : Relation.ReflTransGen GStep (init0 prog) s) :
    ∀ l1 i a l2, s.trace = l1 ++ (i, a) :: l2 → i ≠ 0 → a = GAct.transport →
      (0, GAct.flagSet) ∈ l2 := by
  intro l1 i a l2 heq hi ha
  have hInv := GInv_of_reach h
  have hok : gateOK s.trace := hInv.2.2.2.2.2.2
  rw [heq] at hok
  exact gateOK_split l1 i a l2 hok hi ha

/-- If the initializer's program contains no flag-set action, then in
    any reachable state no periodic task has performed a transport
    operation. -/
theorem no_periodic_transport_without_flagSet {prog : List GAct} {s : GState}
    (hnp : GAct.flagSet ∉ prog)
    (h : Relation.ReflTransGen GStep (init0 prog) s) :
    ∀ i a, (i, a) ∈ s.trace → i ≠ 0 → a ≠ GAct.transport := by
  intro i a hmem hi ha
  obtain ⟨l1, l2, heq⟩ := List.append_of_mem hmem
  have hfs : (0, GAct.flagSet) ∈ l2 :=
    periodic_transport_after_flagSet h l1 i a l2 heq hi ha
  have hmem2 : (0, GAct.flagSet) ∈ s.trace := by
    rw [heq]
    exact List.mem_append_right _ (List.mem_cons_of_mem _ hfs)
  have hInv := GInv_of_reach h
  exact hnp (hInv.2.1 _ hmem2)

/-- C2 amended: the Initializer performs its bring-up phases (module
    probe, network setup, MQTT setup, MQTT connect) strictly before
    setting the readiness flag, and the flag set strictly precedes the
    initial "online" publish (the reverse of the claimed order); and in
    the interleaving model the readiness gate guarantees that every
    transport operation of any other task happens after the flag-set
    event, hence after the bring-up phases — but not after the initial
    online publish. -/
theorem readiness_gate_ordering :
    (∀ take5 : Bool,
       idxLt (fun a => a == Act.runPhase Phase.network) isFlagSetTrue
         (vInitTaskTrace true true true true true true true true true take5) = true ∧
       idxLt (fun a => a == Act.runPhase Phase.mqttSetup) isFlagSetTrue
         (vInitTaskTrace true true true true true true true true true take5) = true ∧
       idxLt (fun a => a == Act.runPhase Phase.mqttConnect) isFlagSetTrue
         (vInitTaskTrace true true true true true true true true true take5) = true ∧
       idxLt isExecAT isFlagSetTrue
         (vInitTaskTrace true true true true true true true true true take5) = true ∧
       (take5 = true → idxLt isFlagSetTrue isWriteLineAct
         (vInitTaskTrace true true true true true true true true true take5) = true)) ∧
    (∀ (prog : List GAct) (s : GState),
       Relation.ReflTransGen GStep (init0 prog) s →
       ∀ l1 i a l2, s.trace = l1 ++ (i, a) :: l2 → i ≠ 0 → a = GAct.transport →
         (0, GAct.flagSet) ∈ l2) := by
  refine ⟨by decide, ?_⟩
  intro prog s hreach
  exact periodic_transport_after_flagSet hreach

theorem readiness_gate_ordering_witness :
    idxLt isFlagSetTrue isWriteLineAct
      (vInitTaskTrace true true true true true true true true true true) = true ∧
    (∀ l1 i a l2,
       (init0 []).trace = l1 ++ (i, a) :: l2 → i ≠ 0 → a = GAct.transport →
       (0, GAct.flagSet) ∈ l2) :=
  ⟨(readiness_gate_ordering.1 true).2.2.2.2 rfl,
   readiness_gate_ordering.2 [] (init0 []) Relation.ReflTransGen.refl⟩

theorem actToG_eq_flagSet {a : Act} (h : actToG a = GAct.flagSet) :
    a = Act.setFlag true := by
  cases a with
  | setFlag b =>
      cases b with
      | true => rfl
      | false => simp [actToG] at h
  | runPhase p => cases p <;> simp [actToG] at h
  | takeOk => simp [actToG] at h
  | takeFail => simp [actToG] at h
  | give => simp [actToG] at h
  | execAT c t => simp [actToG] at h
  | writeLine s => simp [actToG] at h
  | delayMs n => simp [actToG] at h
  | pollIncoming => simp [actToG] at h
  | report m => simp [actToG] at h
  | terminate => simp [actToG] at h

theorem init_failure_trace_props :
    ∀ mcpOk take1 atOk take2 netOk take3 mqttOk take4 connOk take5 : Bool,
      (atOk = false ∨ netOk = false ∨ mqttOk = false ∨ connOk = false) →
      (vInitTaskTrace mcpOk take1 atOk take2 netOk take3 mqttOk take4 connOk
         take5).contains Act.terminate = true ∧
      Act.setFlag true ∉
        vInitTaskTrace mcpOk take1 atOk take2 netOk take3 mqttOk take4 connOk take5 ∧
      (∀ p : Phase,
        ((vInitTaskTrace mcpOk take1 atOk take2 netOk take3 mqttOk take4 connOk
           take5).filter (fun a => a == Act.runPhase p)).length ≤ 1) := by
  decide

/-- C9: for every hard bring-up failure (module never responds, network
    never registers, MQTT setup or connect fails), vInitTask terminates
    (vTaskDelete occurs on the path), never sets the readiness flag to
    true, and attempts each bring-up phase at most once (no automatic
    retry of the bring-up); consequently, in the interleaving model with
    that failing initializer program, no periodic task ever performs a
    transport operation in any reachable state. -/
theorem initializer_hard_failure_halts :
    ∀ mcpOk take1 atOk take2 netOk take3 mqttOk take4 connOk take5 : Bool,
      (atOk = false ∨ netOk = false ∨ mqttOk = false ∨ connOk = false) →
      (vInitTaskTrace mcpOk take1 atOk take2 netOk take3 mqttOk take4 connOk
         take5).contains Act.terminate = true ∧
      Act.setFlag true ∉
        vInitTaskTrace mcpOk take1 atOk take2 netOk take3 mqttOk take4 connOk take5 ∧
      (∀ p : Phase,
        ((vInitTaskTrace mcpOk take1 atOk take2 netOk take3 mqttOk take4 connOk
           take5).filter (fun a => a == Act.runPhase p)).length ≤ 1) ∧
      (∀ s : GState,
        Relation.ReflTransGen GStep
          (init0 ((vInitTaskTrace mcpOk take1 atOk take2 netOk take3 mqttOk take4
            connOk take5).map actToG)) s →
        ∀ i a, (i, a) ∈ s.trace → i ≠ 0 → a ≠ GAct.transport) := by
  intro mcpOk take1 atOk take2 netOk take3 mqttOk take4 connOk take5 hfail
  have hprops := init_failure_trace_props mcpOk take1 atOk take2 netOk take3 mqttOk
    take4 connOk take5 hfail
  refine ⟨hprops.1, hprops.2.1, hprops.2.2, ?_⟩
  intro s hreach
  refine no_periodic_transport_without_flagSet ?_ hreach
  intro hmem
  obtain ⟨a, ha, hag⟩ := List.mem_map.mp hmem
  rw [actToG_eq_flagSet hag] at ha
  exact hprops.2.1 ha

theorem initializer_hard_failure_halts_witness :
    ((true : Bool) = false ∨ (false : Bool) = false ∨ (true : Bool) = false ∨
      (true : Bool) = false) ∧
    (vInitTaskTrace true true true true false true true true true true).contains
      Act.terminate = true :=
  ⟨Or.inr (Or.inl rfl),
   (initializer_hard_failure_halts true true true true false true true true true true
     (Or.inr (Or.inl rfl))).1⟩

/-! ## Receive pipeline: checkIncomingMessages

The source (main.cpp lines 534-565) reads one line from the UART per
poll; if that line contains one of the markers +CMQTTRXTOPIC:,
+CMQTTRXPAYLOAD: or +CMQTTRXSTART: it prints it, waits 100 ms, and then
prints every further line already buffered until a line containing
+CMQTTRXEND: (or until the buffer is empty); a first line matching no
marker is consumed and discarded without printing.  The model treats the
UART buffer as a list of complete lines; each poll is given the lines
that arrived since the previous poll (lines arriving during a poll's own
100 ms drain window count as the next poll's chunk, which covers every
arrival schedule slower than one poll duration). -/

def rxStartTok : Line := "+CMQTTRXSTART:".toList

def rxTopicTok : Line := "+CMQTTRXTOPIC:".toList

def rxPayloadTok : Line := "+CMQTTRXPAYLOAD:".toList

def rxEndTok : Line := "+CMQTTRXEND:".toList

/-- The marker test of the outer if in checkIncomingMessages. -/
def isRxMarker (l : Line) : Bool :=
  containsSub rxTopicTok l || containsSub rxPayloadTok l || containsSub rxStartTok l

/-- The inner while loop: print buffered lines until one containing the
    end marker (inclusive) or until the buffer empties.
    Returns (printed lines, unconsumed buffer). -/
def drainFrame : List Line → List Line × List Line
  | [] => ([], [])
  | y :: ys =>
    if containsSub rxEndTok y then ([y], ys)
    else
      let pr := drainFrame ys
      (y :: pr.1, pr.2)

/-- One poll of checkIncomingMessages over the buffered lines.
    Returns (printed lines, unconsumed buffer). -/
def checkIncomingMessages : List Line → List Line × List Line
  | [] => ([], [])
  | x :: xs =>
    if isRxMarker x then
      let pr := drainFrame xs
      (x :: pr.1, pr.2)
    else ([], xs)

/-- Repeated polls: before poll i the lines of chunk i join the buffer
    left over from the previous poll.  Returns all printed lines. -/
def runPolls : List (List Line) → List Line → List Line
  | [], _ => []
  | c :: cs, buf =>
    let pr := checkIncomingMessages (buf ++ c)
    pr.1 ++ runPolls cs pr.2

/-- A well-formed notification frame: start marker, topic marker, topic
    text, payload marker, payload text, end marker.  The suffix
    arguments stand for the numeric index/length fields of the marker
    lines. -/
def mkFrame (sSuf tSuf pSuf eSuf topic payload : Line) : List Line :=
  [rxStartTok ++ sSuf, rxTopicTok ++ tSuf, topic,
   rxPayloadTok ++ pSuf, payload, rxEndTok ++ eSuf]

/-- C4 counterexample: delivering the well-formed frame for topic
    "topic1" and payload "hello" one line per poll (slow arrival), the
    poller never outputs the topic line or the payload line at all —
    body lines read at the start of a poll match no marker and are
    silently discarded — so no (topic, payload) pair equal to the
    injected values is emitted under this chunking. -/
theorem frame_chunked_polls_counterexample :
    ¬ (((runPolls
          ((mkFrame " 0,6,5".toList " 0,6".toList " 0,5".toList " 0".toList
             "topic1".toList "hello".toList).map (fun l => [l])) []).contains
         "topic1".toList = true) ∧
       ((runPolls
          ((mkFrame " 0,6,5".toList " 0,6".toList " 0,5".toList " 0".toList
             "topic1".toList "hello".toList).map (fun l => [l])) []).contains
         "hello".toList = true)) := by
  decide

/-- C4 amended: checkIncomingMessages does not reassemble (topic,
    payload) pairs; its only output is echoing frame lines to the log.
    When the entire well-formed frame is available within a single poll,
    the poll prints exactly the frame's six lines, topic and payload
    text included, in order; but when the frame's lines are spread
    across multiple polls, any body line that begins a poll is silently
    discarded, so the topic and payload are not emitted under every
    chunking. -/
theorem frame_single_poll_prints_all :
    ∀ sSuf tSuf pSuf eSuf topic payload : Line,
      containsSub rxEndTok (rxTopicTok ++ tSuf) = false →
      containsSub rxEndTok topic = false →
      containsSub rxEndTok (rxPayloadTok ++ pSuf) = false →
      containsSub rxEndTok payload = false →
      runPolls [mkFrame sSuf tSuf pSuf eSuf topic payload] [] =
        mkFrame sSuf tSuf pSuf eSuf topic payload := by
  intro sSuf tSuf pSuf eSuf topic payload h1 h2 h3 h4
  have hm : isRxMarker (rxStartTok ++ sSuf) = true := by
    simp [isRxMarker, containsSub_append_self]
  have he : containsSub rxEndTok (rxEndTok ++ eSuf) = true :=
    containsSub_append_self rxEndTok eSuf
  simp [runPolls, mkFrame, checkIncomingMessages, drainFrame, hm, he, h1, h2, h3, h4]

theorem frame_single_poll_prints_all_witness :
    runPolls
      [mkFrame " 0,6,5".toList " 0,6".toList " 0,5".toList " 0".toList
        "topic1".toList "hello".toList] [] =
      mkFrame " 0,6,5".toList " 0,6".toList " 0,5".toList " 0".toList
        "topic1".toList "hello".toList :=
  frame_single_poll_prints_all " 0,6,5".toList " 0,6".toList " 0,5".toList
    " 0".toList "topic1".toList "hello".toList
    (by decide) (by decide) (by decide) (by decide)

end SIM7600
